import Mathlib

/-!
# Firework — a Firebase-backed distributed work queue, shallowly embedded

This file embeds the concurrency-critical core of the firework repository:

* the `Queue` bookkeeping code (`src/modules/Queue.js`, `src/lib/queue.js`):
  the two partitions (`pendingJobs`, `startedJobs`), `addJob`,
  `removeAllPendingJobs` / `removeAllStartedJobs` / `removeAllJobs` /
  `clear`, `retryFailedJobs`, and the record-start / record-failure /
  record-success hooks built on `mergeProperties`;
* the `Worker` claim protocol and run loop (`src/lib/worker.js`,
  `src/modules/Worker.js`): the claim transform `claimJob`, the
  transaction-completion handler `onComplete`, `startJob`, `finishJob`,
  `getNextJob`, the `child_added` handler, and `stop`, assembled into an
  executable labelled step machine;
* the `Runner` pool manager (`src/modules/runner.js`):
  `setNumberOfWorkers`, `incrementWorkers`, `replaceWorker`, and the
  stop-completion counter of the shrink branch.

Machine conventions: Firebase keys are `Nat`; the opaque server-timestamp
marker `Firebase.ServerValue.TIMESTAMP` is the distinguished value
`TVal.server`; JavaScript `null`/`undefined` job values are `Option`;
the asynchronous callbacks of the real client (transaction completion,
the user job completion callback, `child_added` notifications, stop)
are the labels of the step machine, so that an arbitrary interleaving of
those callbacks is an arbitrary label list.
-/

/-- A timestamp value stored on a job record: either the store's opaque
server-timestamp marker (`Firebase.ServerValue.TIMESTAMP`) or a concrete
time. -/
inductive TVal
| server
| time (t : Nat)
deriving DecidableEq, Repr

/-- A job record: user payload fields plus the reserved metadata fields
`_key`/`_name`, `_startedAt`, `_failedAt`, `_succeededAt`, `_error`
(`key`, `startedAt`, `failedAt`, `succeededAt`, `errMsg` here).
`none` models an absent property. -/
structure Job where
  payload : List (String × Nat) := []
  key : Option Nat := none
  startedAt : Option TVal := none
  failedAt : Option TVal := none
  succeededAt : Option TVal := none
  errMsg : Option String := none
deriving DecidableEq, Repr

def emptyJob : Job := {}

/-- One field of the for-in copy of `mergeProperties`: a property present
on the source overwrites the target's. -/
def mergeOpt {α : Type} (target source : Option α) : Option α :=
  match source with
  | some v => some v
  | none => target

/-- Payload half of `mergeProperties`: source entries overwrite target
entries with the same name, the rest of the target survives. -/
def mergePayload (target source : List (String × Nat)) : List (String × Nat) :=
  target.filter (fun p => (source.find? (fun q => q.1 == p.1)).isNone) ++ source

/-- `mergeProperties(target, source)` from
`src/modules/utils/mergeProperties.js` / `src/lib/queue.js`: copies every
own property of `source` onto `target`, so `source` fields win. -/
def mergeProperties (target source : Job) : Job :=
  { payload := mergePayload target.payload source.payload
    key := mergeOpt target.key source.key
    startedAt := mergeOpt target.startedAt source.startedAt
    failedAt := mergeOpt target.failedAt source.failedAt
    succeededAt := mergeOpt target.succeededAt source.succeededAt
    errMsg := mergeOpt target.errMsg source.errMsg }

/-- `Firebase.ServerValue.TIMESTAMP` as returned by `serverTimestamp()`. -/
def serverTimestamp : TVal := TVal.server

/-- The record written by the queue's record-start hook
(`Queue.prototype._jobWasStarted` in `src/lib/queue.js`, the `start`
handler of `setupWorker` in `src/modules/Queue.js`):
`mergeProperties({ _startedAt: serverTimestamp() }, job)`. -/
def jobWasStartedRecord (job : Job) : Job :=
  mergeProperties { emptyJob with startedAt := some serverTimestamp } job

/-- The record written by the record-failure hook
(`Queue.prototype._jobDidFail` / the `failure` handler of `setupWorker`):
merge `{ _failedAt: serverTimestamp() }` with the job, then set `_error`
to the error's string when an error was given. -/
def jobDidFailRecord (job : Job) (error : Option String) : Job :=
  let merged := mergeProperties { emptyJob with failedAt := some serverTimestamp } job
  match error with
  | some e => { merged with errMsg := some e }
  | none => merged

/-- The record written by the record-success hook
(`Queue.prototype._jobDidSucceed` / the `success` handler of
`setupWorker`). -/
def jobDidSucceedRecord (job : Job) : Job :=
  mergeProperties { emptyJob with succeededAt := some serverTimestamp } job

/-- A Firebase collection of children, in order: key/value pairs. -/
def lookupAssoc (l : List (Nat × Job)) (k : Nat) : Option Job :=
  match l.find? (fun p => p.1 == k) with
  | some p => some p.2
  | none => none

/-- `ref.child(k).set(j)` on a collection: overwrite in place, or append. -/
def setAssoc (l : List (Nat × Job)) (k : Nat) (j : Job) : List (Nat × Job) :=
  if (l.find? (fun p => p.1 == k)).isSome then
    l.map (fun p => if p.1 == k then (k, j) else p)
  else
    l ++ [(k, j)]

/-- `ref.child(k).remove()` / writing `null` at a child. -/
def removeAssoc (l : List (Nat × Job)) (k : Nat) : List (Nat × Job) :=
  l.filter (fun p => p.1 != k)

/-- `ref.child(k).update(fields)`: merge `fields` into the record at `k`
(fields win over the existing record), creating the record when absent. -/
def updateChild (l : List (Nat × Job)) (k : Nat) (fields : Job) : List (Nat × Job) :=
  match lookupAssoc l k with
  | some old => setAssoc l k (mergeProperties old fields)
  | none => setAssoc l k fields

/-- The backing store owned by one queue: the `pendingJobs` and
`startedJobs` partitions, plus the push-key generator. -/
structure Store where
  nextKey : Nat := 0
  pendingJobs : List (Nat × Job) := []
  startedJobs : List (Nat × Job) := []
deriving DecidableEq, Repr

/-- `Queue#addJob` from `src/modules/Queue.js`: if the job carries a
`_key`, write it at `pendingJobs.child(job._key)`, otherwise push it under
a fresh store-generated key. Returns the key used. -/
def addJob (s : Store) (job : Job) : Store × Nat :=
  match job.key with
  | some k => ({ s with pendingJobs := setAssoc s.pendingJobs k job }, k)
  | none =>
    let k := s.nextKey
    ({ s with nextKey := k + 1, pendingJobs := s.pendingJobs ++ [(k, job)] }, k)

/-- `Queue#removeAllPendingJobs`: `pendingJobs.set(null)`. -/
def removeAllPendingJobs (s : Store) : Store :=
  { s with pendingJobs := [] }

/-- `Queue#removeAllStartedJobs`: `startedJobs.set(null)`. -/
def removeAllStartedJobs (s : Store) : Store :=
  { s with startedJobs := [] }

/-- `Queue#removeAllJobs`: remove all pending, then all started jobs. -/
def removeAllJobs (s : Store) : Store :=
  removeAllStartedJobs (removeAllPendingJobs s)

/-- `Queue#clear`, declared in both `src/modules/Queue.js` (line 189) and
`src/lib/queue.js` (line 56) as a shorthand for
`Queue#removeAllPendingJobs`. -/
def clear (s : Store) : Store :=
  removeAllPendingJobs s

/-- `isFailedJob` from `src/modules/Queue.js` / `src/lib/queue.js`:
`object && object._failedAt && !object._succeededAt` (truthiness of a
stored timestamp rendered as presence). -/
def isFailedJob (job : Job) : Bool :=
  job.failedAt.isSome && !job.succeededAt.isSome

/-- `Queue#_retryJob`: `addJob(job, ref.remove.bind(ref))` — re-enqueue the
payload into pending, then (in the completion callback of that write)
remove the original child of `startedJobs`. -/
def retryJob (s : Store) (k : Nat) (job : Job) : Store :=
  let s1 := (addJob s job).1
  { s1 with startedJobs := removeAssoc s1.startedJobs k }

/-- The `snapshot.forEach` loop of `Queue#retryFailedJobs`: walk the
one-shot snapshot of `startedJobs`, retry each failed job, count them, and
cancel the loop when the count reaches `maxJobs` (`0` never matches, so
`0` means unbounded, exactly as `++numRetriedJobs === maxJobs` does). -/
def retryGo (maxJobs : Nat) : List (Nat × Job) → Nat → Store → Nat × Store
  | [], n, s => (n, s)
  | (k, job) :: rest, n, s =>
    if isFailedJob job then
      let s1 := retryJob s k job
      let n1 := n + 1
      if n1 == maxJobs then (n1, s1) else retryGo maxJobs rest n1 s1
    else
      retryGo maxJobs rest n s

/-- `Queue#retryFailedJobs(maxJobs, callback)` from
`src/modules/Queue.js` lines 97-128: snapshot `startedJobs` once, run the
retry loop, and hand the callback the number of jobs retried. -/
def retryFailedJobs (s : Store) (maxJobs : Nat) : Nat × Store :=
  retryGo maxJobs s.startedJobs 0 s

/-- The claim transform of `src/lib/worker.js` lines 106-111: record the
value read into `nextJob` and return `null` only when a job was read
(returning JavaScript `undefined` — here the outer `none` — aborts the
transaction without writing). Result: (value read, write decision). -/
def claimJobV1 (job : Option Job) : Option Job × Option (Option Job) :=
  match job with
  | some j => (some j, some none)
  | none => (none, none)

/-- The claim transform of `src/lib/worker.js` lines 573-579 (and of
`Worker#_tryToWork` in `src/modules/Worker.js`): record the value read
into `nextJob` and return `null` unconditionally. Result:
(value read, write decision). -/
def claimJob (job : Option Job) : Option Job × Option (Option Job) :=
  (job, some none)

/-- Observable worker events (`EventEmitter` emissions, plus `stopped`
for the invocation of the callback passed to `Worker#stop`). -/
inductive Ev
| start (job : Job)
| failure (job : Job) (error : Option String)
| success (job : Job)
| finish (job : Job)
| idle
| errored
| stopped
deriving DecidableEq, Repr

/-- How a claim transaction resolves at the store: a store-level error, a
non-committed outcome (concurrent modification), or a serialized commit. -/
inductive TxOutcome
| fail
| abort
| commit
deriving DecidableEq, Repr

/-- The asynchronous callbacks that drive a worker, as machine labels:
a `child_added` notification for pending child `k`, the completion of the
claim transaction, the user job function invoking its completion
callback, and a call to `Worker#stop` (with or without a callback). -/
inductive Act
| notify (k : Nat)
| txDone (o : TxOutcome)
| jobCallback (error : Option String)
| stopCall (hasCallback : Bool)
deriving DecidableEq, Repr

/-- The process-local state of one `Worker` from `src/lib/worker.js`
(third revision, lines 445-608) / `src/modules/Worker.js`:
`query` is the live subscription handle, `nextSnapshot` the stashed
candidate, `isBusy` the busy flag, `txRef` the claim transaction in
flight (candidate key and the `previousJob` captured by `_tryToWork`),
`running` the job being performed, `stopCbArmed` a stop callback parked
on `once('idle', ...)`. The default is a freshly started worker. -/
structure WS where
  query : Bool := true
  nextSnapshot : Option Nat := none
  isBusy : Bool := false
  txRef : Option (Nat × Option Job) := none
  running : Option Job := none
  stopCbArmed : Bool := false
  failureCount : Nat := 0
  successCount : Nat := 0
deriving DecidableEq, Repr

/-- One worker plus the queue's backing store. -/
structure Machine where
  ws : WS := {}
  store : Store := {}
deriving DecidableEq, Repr

/-- `Worker#_tryToWork(previousJob)` up to issuing `ref.transaction`:
when a candidate is stashed and the worker is not busy, become busy,
consume the snapshot and put the claim transaction in flight. -/
def tryToWork (prev : Option Job) (w : WS) : WS :=
  match w.nextSnapshot, w.isBusy with
  | some k, false => { w with isBusy := true, nextSnapshot := none, txRef := some (k, prev) }
  | _, _ => w

/-- `Worker#getNextJob(previousJob)`: drop the busy flag; re-attempt at
once when a candidate is stashed; otherwise emit `idle` when a previous
job exists (releasing a stop callback parked on `once('idle')`). -/
def getNextJob (prev : Option Job) (w : WS) : WS × List Ev :=
  let w1 := { w with isBusy := false }
  match w1.nextSnapshot with
  | some _ => (tryToWork prev w1, [])
  | none =>
    match prev with
    | some _ =>
      if w1.stopCbArmed then
        ({ w1 with stopCbArmed := false }, [Ev.idle, Ev.stopped])
      else
        (w1, [Ev.idle])
    | none => (w1, [])

/-- `Worker#startJob(job)` up to handing the job to `performJob`: emit
`start` — which runs the queue's record-start hook, an `update` of
`startedJobs.child(job._key)` with `jobWasStartedRecord` — and remember
the running job (its completion callback is the `jobCallback` label). -/
def startJob (job : Job) (w : WS) (s : Store) : WS × Store × List Ev :=
  let s1 :=
    match job.key with
    | some k => { s with startedJobs := updateChild s.startedJobs k (jobWasStartedRecord job) }
    | none => s
  ({ w with running := some job }, s1, [Ev.start job])

/-- The `onComplete(error, committed)` handler of `Worker#_tryToWork`
(`src/lib/worker.js` lines 581-598), together with the serialized effect
of the claim transaction itself: on a store error emit `error` and stop
working; on a commit apply the `claimJob` transform's write and, when a
job was actually read, assign its key and start it; otherwise the race
was lost and the worker asks for the next job. -/
def onComplete (o : TxOutcome) (m : Machine) : Machine × List Ev :=
  match m.ws.txRef with
  | none => (m, [])
  | some (k, prev) =>
    let w := { m.ws with txRef := none }
    match o with
    | TxOutcome.fail => ({ m with ws := w }, [Ev.errored])
    | TxOutcome.abort =>
      let r := getNextJob prev w
      ({ m with ws := r.1 }, r.2)
    | TxOutcome.commit =>
      let tx := claimJob (lookupAssoc m.store.pendingJobs k)
      let s1 :=
        match tx.2 with
        | some none => { m.store with pendingJobs := removeAssoc m.store.pendingJobs k }
        | some (some v) => { m.store with pendingJobs := setAssoc m.store.pendingJobs k v }
        | none => m.store
      match tx.1 with
      | some j =>
        let j1 :=
          match j.key with
          | none => { j with key := some k }
          | some _ => j
        let r := startJob j1 w s1
        ({ ws := r.1, store := r.2.1 }, r.2.2)
      | none =>
        let r := getNextJob prev w
        ({ ws := r.1, store := s1 }, r.2)

/-- `Worker#finishJob(job, error)` as triggered by the (guarded,
single-use) completion callback handed to `performJob`: when no job is
running the extra invocation is ignored; otherwise bump the counter, emit
`failure`/`success` (running the queue's record hook), emit `finish`, and
get the next job. -/
def finishJob (error : Option String) (m : Machine) : Machine × List Ev :=
  match m.ws.running with
  | none => (m, [])
  | some job =>
    let w := { m.ws with running := none }
    let step1 : WS × Store × List Ev :=
      match error with
      | some e =>
        let s1 :=
          match job.key with
          | some k => { m.store with startedJobs := updateChild m.store.startedJobs k (jobDidFailRecord job (some e)) }
          | none => m.store
        ({ w with failureCount := w.failureCount + 1 }, s1, [Ev.failure job (some e)])
      | none =>
        let s1 :=
          match job.key with
          | some k => { m.store with startedJobs := updateChild m.store.startedJobs k (jobDidSucceedRecord job) }
          | none => m.store
        ({ w with successCount := w.successCount + 1 }, s1, [Ev.success job])
    let r := getNextJob (some job) step1.1
    ({ ws := r.1, store := step1.2.1 }, step1.2.2 ++ [Ev.finish job] ++ r.2)

/-- `Worker#stop(callback)` from `src/lib/worker.js` lines 496-509:
cancel the subscription (the stashed `nextSnapshot` is NOT cleared);
with a callback, park it on `once('idle')` when busy, else invoke it at
once. -/
def stopV3 (hasCallback : Bool) (w : WS) : WS × List Ev :=
  let w1 := { w with query := false }
  if hasCallback then
    if w1.isBusy then ({ w1 with stopCbArmed := true }, [])
    else (w1, [Ev.stopped])
  else (w1, [])

/-- The `child_added` handler installed by `Worker#start`: while
subscribed, stash the earliest-ordered candidate and try to work. -/
def childAdded (k : Nat) (w : WS) : WS :=
  if w.query then tryToWork none { w with nextSnapshot := some k } else w

/-- One labelled step of the worker machine. -/
def step (a : Act) (m : Machine) : Machine × List Ev :=
  match a with
  | Act.notify k => ({ m with ws := childAdded k m.ws }, [])
  | Act.txDone o => onComplete o m
  | Act.jobCallback e => finishJob e m
  | Act.stopCall hc =>
    let r := stopV3 hc m.ws
    ({ m with ws := r.1 }, r.2)

/-- Run a list of labels, concatenating the emitted events. -/
def run (m : Machine) : List Act → Machine × List Ev
  | [] => (m, [])
  | a :: rest =>
    let r1 := step a m
    let r2 := run r1.1 rest
    (r2.1, r1.2 ++ r2.2)

/-- The race of several workers whose claim transactions against the same
store serialize in list order: each worker's transaction commits in turn
(`ref.transaction` retries until it commits when there is no store
error), producing that worker's post-state and events. -/
def completeAll : List WS → Store → List (WS × List Ev) × Store
  | [], s => ([], s)
  | w :: rest, s =>
    let r := step (Act.txDone TxOutcome.commit) { ws := w, store := s }
    let r2 := completeAll rest r.1.store
    ((r.1.ws, r.2) :: r2.1, r2.2)

/-- A pool member as the runner sees it: the diagnostic id handed to the
factory, and whether `start()` / `stop()` have been called on it. The
`error` listener that `Runner#createWorker` attaches is what routes a
fatal worker error to `Runner#replaceWorker`. -/
structure RWorker where
  id : Nat
  started : Bool := false
  stopped : Bool := false
deriving DecidableEq, Repr

/-- `Runner#createWorker(id)`: invoke the factory and wire the listeners
(the returned worker has not been started yet). -/
def createWorker (id : Nat) : RWorker :=
  { id := id }

/-- The runner's own state from `src/modules/runner.js`: the
monotonically increasing worker id and the pool in creation order. -/
structure Runner where
  workerId : Nat := 0
  workers : List RWorker := []
deriving DecidableEq, Repr

/-- What `Runner#setNumberOfWorkers` hands its callback: the removed
workers (after all of their stop callbacks fired) or the new workers. -/
inductive SetResult
| removed (ws : List RWorker)
| added (ws : List RWorker)
deriving DecidableEq, Repr

/-- `worker.stop(workerStopped)` on an evicted worker. -/
def markStopped (w : RWorker) : RWorker :=
  { w with stopped := true }

/-- The grow loop of `Runner#setNumberOfWorkers`: create `count` workers
through `createWorker(++this.workerId)` and `start()` each. -/
def mkNewWorkers (startId count : Nat) : List RWorker :=
  (List.range count).map (fun i => { createWorker (startId + i + 1) with started := true })

/-- The `workerStopped` closure of the shrink branch: bump the
`numStoppedWorkers` counter and report whether this completion is the one
that invokes `callback(removedWorkers)` (it fires exactly when the
counter reaches `removedWorkers.length`). -/
def workerStopped (removedLen numStopped : Nat) : Nat × Bool :=
  (numStopped + 1, numStopped + 1 == removedLen)

/-- `Runner#setNumberOfWorkers(numWorkers, callback)` from
`src/modules/runner.js` lines 27-60: clamp to at least `0`; when
shrinking, splice off the oldest workers, stop each, and (once every stop
callback has fired) hand the callback the removed workers; otherwise
create, start and append the new workers and hand them to the callback
without waiting. -/
def setNumberOfWorkers (r : Runner) (numWorkers : Int) : Runner × SetResult :=
  let target := (max 0 numWorkers).toNat
  let change : Int := (target : Int) - (r.workers.length : Int)
  if change < 0 then
    let cnt := r.workers.length - target
    let removedWorkers := (r.workers.take cnt).map markStopped
    ({ r with workers := r.workers.drop cnt }, SetResult.removed removedWorkers)
  else
    let newWorkers := mkNewWorkers r.workerId change.toNat
    ({ workerId := r.workerId + change.toNat, workers := r.workers ++ newWorkers },
      SetResult.added newWorkers)

/-- `Runner#incrementWorkers(howMany)`. -/
def incrementWorkers (r : Runner) (howMany : Nat) : Runner × SetResult :=
  setNumberOfWorkers r ((r.workers.length : Int) + (howMany : Int))

/-- `Runner#replaceWorker(worker)` from `src/modules/runner.js` lines
123-133: if the worker is a pool member, splice it out (no `stop()` call)
and `incrementWorkers(1)`. Returns the new runner, the workers whose
`stop` was called, and the workers created. -/
def replaceWorker (r : Runner) (w : RWorker) : Runner × List RWorker × List RWorker :=
  if w ∈ r.workers then
    let r1 : Runner := { r with workers := r.workers.erase w }
    let r2 := incrementWorkers r1 1
    match r2.2 with
    | SetResult.added ws => (r2.1, [], ws)
    | SetResult.removed ws => (r2.1, ws, [])
  else
    (r, [], [])

/-! ## Helper lemmas about the store collections -/

lemma lookupAssoc_map_set (l : List (Nat × Job)) (k : Nat) (j : Job)
    (h : (l.find? (fun p => p.1 == k)).isSome = true) :
    lookupAssoc (l.map (fun p => if p.1 == k then (k, j) else p)) k = some j := by
  induction l with
  | nil => simp [List.find?] at h
  | cons p rest ih =>
    by_cases hp : p.1 == k
    · simp [lookupAssoc, List.find?, hp]
    · simp only [List.find?, hp] at h
      simp only [List.map, hp, if_false]
      simpa [lookupAssoc, List.find?, hp] using ih h

lemma lookupAssoc_append_single (l : List (Nat × Job)) (k : Nat) (j : Job)
    (h : (l.find? (fun p => p.1 == k)).isSome = false) :
    lookupAssoc (l ++ [(k, j)]) k = some j := by
  induction l with
  | nil => simp [lookupAssoc, List.find?]
  | cons p rest ih =>
    by_cases hp : p.1 == k
    · simp [List.find?, hp] at h
    · simp only [List.find?, hp] at h
      simpa [lookupAssoc, List.find?, hp] using ih h

lemma lookupAssoc_setAssoc_self (l : List (Nat × Job)) (k : Nat) (j : Job) :
    lookupAssoc (setAssoc l k j) k = some j := by
  unfold setAssoc
  by_cases h : (l.find? (fun p => p.1 == k)).isSome
  · simpa [h] using lookupAssoc_map_set l k j h
  · simp only [Bool.not_eq_true] at h
    simpa [h] using lookupAssoc_append_single l k j h

lemma removeAssoc_eq_of_lookupAssoc_none (l : List (Nat × Job)) (k : Nat)
    (h : lookupAssoc l k = none) : removeAssoc l k = l := by
  induction l with
  | nil => rfl
  | cons p rest ih =>
    by_cases hp : p.1 == k
    · simp [lookupAssoc, List.find?, hp] at h
    · simp only [lookupAssoc, List.find?, hp] at h
      simp only [removeAssoc, List.filter, bne, hp, Bool.not_false]
      have := ih (by simpa [lookupAssoc] using h)
      simpa [removeAssoc] using this

lemma lookupAssoc_removeAssoc_self (l : List (Nat × Job)) (k : Nat) :
    lookupAssoc (removeAssoc l k) k = none := by
  induction l with
  | nil => rfl
  | cons p rest ih =>
    by_cases hp : p.1 == k
    · simpa [removeAssoc, List.filter, bne, hp] using ih
    · simpa [removeAssoc, lookupAssoc, List.filter, List.find?, bne, hp] using ih

/-! ## C2 — the claim transform -/

/-- C2 counterexample: the claim states that when the current value is
already null the claim transform "leaves it unchanged (does not write)".
The transform at `src/lib/worker.js` lines 573-579 returns `null`
unconditionally, so on a null current value its write decision is a write
of null (`some none`), not the absence of a write (`none`). -/
theorem C2_counterexample :
    (claimJob none).2 = some none ∧ (claimJob none).2 ≠ none := by
  exact ⟨rfl, by decide⟩

/-- C2 (amended): for every value passed to a claim transform: a non-null
value is answered with a returned `null`, deleting the job on commit, and
the value read is recorded as `nextJob`. On a null value the transform at
`src/lib/worker.js` lines 106-111 returns `undefined`, aborting without a
write, while the transform at lines 573-579 still returns `null`,
committing a write of null that leaves the (already null) value unchanged;
that vacuous claim is filtered out afterwards by `onComplete`'s
`committed && nextJob` test. -/
theorem C2_claim_transform (j : Job) (v : Option Job) :
    claimJobV1 (some j) = (some j, some none)
    ∧ claimJobV1 none = (none, none)
    ∧ claimJob v = (v, some none) := by
  exact ⟨rfl, rfl, rfl⟩

/-! ## C9 — `clear` -/

/-- C9 counterexample: the claim states that `clear()` deletes all entries
in both the pending and the started partition. On a store whose started
partition holds one job, `clear` (the shorthand for
`removeAllPendingJobs` in both `src/modules/Queue.js` line 189 and
`src/lib/queue.js` line 56) leaves the started partition untouched. -/
theorem C9_counterexample :
    (clear { startedJobs := [(1, emptyJob)] }).startedJobs = [(1, emptyJob)]
    ∧ (clear { startedJobs := [(1, emptyJob)] }).startedJobs ≠ [] := by
  exact ⟨rfl, by decide⟩

/-- C9 (amended): for every queue, `clear()` deletes all entries of the
pending partition and leaves the started partition untouched; it is
`removeAllJobs()` that deletes all entries in both partitions. -/
theorem C9_clear_pending_only (s : Store) :
    (clear s).pendingJobs = []
    ∧ (clear s).startedJobs = s.startedJobs
    ∧ (removeAllJobs s).pendingJobs = []
    ∧ (removeAllJobs s).startedJobs = [] := by
  exact ⟨rfl, rfl, rfl, rfl⟩

/-! ## C10 — merge precedence in the record hooks -/

/-- C10: for every job record written by the record-start, record-failure
and record-success hooks, the job object's own fields take precedence over
the freshly stamped server-timestamp field in the merged record: a
`_startedAt` / `_failedAt` / `_succeededAt` value already present on the
job payload (as on a re-enqueued retried job) overwrites the new
server-timestamp marker; the marker is used only when the field is
absent. -/
theorem C10_job_fields_beat_timestamp (job : Job) (v : TVal) (e : Option String) :
    (job.startedAt = some v → (jobWasStartedRecord job).startedAt = some v)
    ∧ (job.startedAt = none → (jobWasStartedRecord job).startedAt = some serverTimestamp)
    ∧ (job.failedAt = some v → (jobDidFailRecord job e).failedAt = some v)
    ∧ (job.failedAt = none → (jobDidFailRecord job e).failedAt = some serverTimestamp)
    ∧ (job.succeededAt = some v → (jobDidSucceedRecord job).succeededAt = some v)
    ∧ (job.succeededAt = none → (jobDidSucceedRecord job).succeededAt = some serverTimestamp) := by
  refine ⟨?_, ?_, ?_, ?_, ?_, ?_⟩ <;> intro h
  · simp [jobWasStartedRecord, mergeProperties, mergeOpt, h]
  · simp [jobWasStartedRecord, mergeProperties, mergeOpt, h]
  · cases e <;> simp [jobDidFailRecord, mergeProperties, mergeOpt, h]
  · cases e <;> simp [jobDidFailRecord, mergeProperties, mergeOpt, h]
  · simp [jobDidSucceedRecord, mergeProperties, mergeOpt, h]
  · simp [jobDidSucceedRecord, mergeProperties, mergeOpt, h]

/-- C10 witness: a job (such as a re-enqueued retried one) that already
carries `_startedAt`, `_failedAt` and `_succeededAt` keeps those old
values through each hook's merge. -/
theorem C10_witness :
    (jobWasStartedRecord { startedAt := some (TVal.time 3), failedAt := some (TVal.time 4), succeededAt := some (TVal.time 6) }).startedAt = some (TVal.time 3)
    ∧ (jobDidFailRecord { startedAt := some (TVal.time 3), failedAt := some (TVal.time 4), succeededAt := some (TVal.time 6) } (some "boom")).failedAt = some (TVal.time 4)
    ∧ (jobDidSucceedRecord { startedAt := some (TVal.time 3), failedAt := some (TVal.time 4), succeededAt := some (TVal.time 6) }).succeededAt = some (TVal.time 6) := by
  exact ⟨(C10_job_fields_beat_timestamp _ (TVal.time 3) (some "boom")).1 rfl,
    (C10_job_fields_beat_timestamp _ (TVal.time 4) (some "boom")).2.2.1 rfl,
    (C10_job_fields_beat_timestamp _ (TVal.time 6) (some "boom")).2.2.2.2.1 rfl⟩

/-! ## C3 — `retryFailedJobs` -/

/-- A started-partition record of a job that failed: `_failedAt` set,
`_succeededAt` unset, with its original payload and the metadata stamped
while it ran. -/
def retryExampleJob : Job :=
  { payload := [("a", 5)], key := some 5, startedAt := some (TVal.time 1),
    failedAt := some (TVal.time 2), errMsg := some "boom" }

/-- A store holding exactly that one failed job in `startedJobs`. -/
def retryExampleStore : Store :=
  { nextKey := 0, startedJobs := [(5, retryExampleJob)] }

lemma retryGo_unbounded_count (l : List (Nat × Job)) (n : Nat) (s : Store) :
    (retryGo 0 l n s).1 = n + l.countP (fun p => isFailedJob p.2) := by
  induction l generalizing n s with
  | nil => simp [retryGo]
  | cons p rest ih =>
    obtain ⟨k, job⟩ := p
    by_cases hf : isFailedJob job = true
    · have hz : ((n + 1 : Nat) == 0) = false := by simp
      rw [show retryGo 0 ((k, job) :: rest) n s = retryGo 0 rest (n + 1) (retryJob s k job) from by
        simp [retryGo, hf, hz]]
      rw [ih, List.countP_cons]
      simp [hf]
      omega
    · rw [show retryGo 0 ((k, job) :: rest) n s = retryGo 0 rest n s from by
        simp [retryGo, hf]]
      rw [ih, List.countP_cons]
      simp [hf]

/-- C3 counterexample: the claim states that after retrying a single
failed job the job is back in pending "with its metadata fields reset".
Retrying the example failed job does call back with `1` and moves the job
from started to pending, but the pending record still carries its old
`_startedAt`, `_failedAt` and `_error` values: `retryFailedJobs`
re-enqueues `child.val()` verbatim and resets nothing. -/
theorem C3_counterexample :
    (retryFailedJobs retryExampleStore 0).1 = 1
    ∧ lookupAssoc (retryFailedJobs retryExampleStore 0).2.pendingJobs 5 = some retryExampleJob
    ∧ retryExampleJob.failedAt = some (TVal.time 2)
    ∧ retryExampleJob.startedAt = some (TVal.time 1)
    ∧ retryExampleJob.errMsg = some "boom"
    ∧ (retryFailedJobs retryExampleStore 0).2.startedJobs = [] := by
  exact ⟨rfl, by decide, rfl, rfl, rfl, rfl⟩

/-- C3 (amended): for every started-partition entry with `_failedAt` set
and `_succeededAt` unset, `retryFailedJobs` with no `maxJobs` bound
re-enqueues the job payload into pending verbatim — original payload and
previous metadata fields intact, nothing reset — removes the original
started entry once the re-enqueue write has completed, and calls back with
the number of jobs retried (for a single failed job, `1`; in general the
number of failed jobs in the snapshot). -/
theorem C3_retry_roundtrip (k : Nat) (job : Job) (s s2 : Store)
    (hs : s.startedJobs = [(k, job)])
    (hf : isFailedJob job = true)
    (hk : job.key = some k) :
    (retryFailedJobs s 0).1 = 1
    ∧ lookupAssoc (retryFailedJobs s 0).2.pendingJobs k = some job
    ∧ (retryFailedJobs s 0).2.startedJobs = []
    ∧ (retryFailedJobs s2 0).1 = s2.startedJobs.countP (fun p => isFailedJob p.2) := by
  have hloop : retryFailedJobs s 0 = (1, retryJob s k job) := by
    unfold retryFailedJobs
    rw [hs]
    simp [retryGo, hf]
  have hretry : retryJob s k job =
      { (addJob s job).1 with startedJobs := removeAssoc s.startedJobs k } := by
    unfold retryJob
    unfold addJob
    rw [hk]
  refine ⟨by rw [hloop], ?_, ?_, ?_⟩
  · rw [hloop, hretry]
    unfold addJob
    rw [hk]
    simpa using lookupAssoc_setAssoc_self s.pendingJobs k job
  · rw [hloop, hretry, hs]
    simp [removeAssoc, List.filter]
  · simpa using retryGo_unbounded_count s2.startedJobs 0 s2

/-- C3 witness: the round-trip at the concrete one-failed-job store. -/
theorem C3_witness :
    (retryFailedJobs retryExampleStore 0).1 = 1
    ∧ lookupAssoc (retryFailedJobs retryExampleStore 0).2.pendingJobs 5 = some retryExampleJob
    ∧ (retryFailedJobs retryExampleStore 0).2.startedJobs = []
    ∧ (retryFailedJobs retryExampleStore 0).1 =
        retryExampleStore.startedJobs.countP (fun p => isFailedJob p.2) :=
  C3_retry_roundtrip 5 retryExampleJob retryExampleStore retryExampleStore rfl (by decide) rfl

/-! ## C8 — `setNumberOfWorkers` -/

lemma mkNewWorkers_length (startId count : Nat) :
    (mkNewWorkers startId count).length = count := by
  simp [mkNewWorkers]

lemma mkNewWorkers_started (startId count : Nat) :
    ∀ w ∈ mkNewWorkers startId count, w.started = true := by
  intro w hw
  simp only [mkNewWorkers, List.mem_map] at hw
  obtain ⟨i, _, rfl⟩ := hw
  rfl

lemma setNumberOfWorkers_shrink (r : Runner) (n : Int)
    (h : (max 0 n).toNat < r.workers.length) :
    setNumberOfWorkers r n =
      ({ r with workers := r.workers.drop (r.workers.length - (max 0 n).toNat) },
       SetResult.removed ((r.workers.take (r.workers.length - (max 0 n).toNat)).map markStopped)) := by
  unfold setNumberOfWorkers
  have hcond : (((max 0 n).toNat : Int) - (r.workers.length : Int) < 0) := by omega
  rw [if_pos hcond]

lemma setNumberOfWorkers_grow (r : Runner) (n : Int)
    (h : r.workers.length ≤ (max 0 n).toNat) :
    setNumberOfWorkers r n =
      ({ workerId := r.workerId + ((max 0 n).toNat - r.workers.length),
         workers := r.workers ++ mkNewWorkers r.workerId ((max 0 n).toNat - r.workers.length) },
       SetResult.added (mkNewWorkers r.workerId ((max 0 n).toNat - r.workers.length))) := by
  unfold setNumberOfWorkers
  have hcond : ¬ (((max 0 n).toNat : Int) - (r.workers.length : Int) < 0) := by omega
  rw [if_neg hcond]
  have htn : (((max 0 n).toNat : Int) - (r.workers.length : Int)).toNat
      = (max 0 n).toNat - r.workers.length := by omega
  rw [htn]

/-- C8: for every runner and integer `n`, `setNumberOfWorkers(n)` clamps
`n` to at least `0` (the pool always ends at exactly `max 0 n` workers);
with `delta = n - currentCount`: when `delta < 0` it splices off exactly
`|delta|` oldest (earliest-created, i.e. frontmost) workers, stops each,
and the callback receives exactly those removed workers — firing only at
the `|delta|`-th `workerStopped` completion, i.e. after every stop
callback has fired; when `delta > 0` it creates and starts `delta` new
workers, appends them, and the callback receives the new workers without
waiting; when `delta = 0` the callback fires immediately with an empty
list and the runner is unchanged. -/
theorem C8_setNumberOfWorkers_spec (r : Runner) (n : Int) (total m : Nat) :
    ((setNumberOfWorkers r n).1.workers.length = (max 0 n).toNat)
    ∧ ((max 0 n).toNat < r.workers.length →
        (setNumberOfWorkers r n).2 =
          SetResult.removed ((r.workers.take (r.workers.length - (max 0 n).toNat)).map markStopped)
        ∧ (setNumberOfWorkers r n).1.workers = r.workers.drop (r.workers.length - (max 0 n).toNat)
        ∧ ∀ w ∈ (r.workers.take (r.workers.length - (max 0 n).toNat)).map markStopped,
            w.stopped = true)
    ∧ (r.workers.length < (max 0 n).toNat →
        (setNumberOfWorkers r n).2 =
          SetResult.added (mkNewWorkers r.workerId ((max 0 n).toNat - r.workers.length))
        ∧ (mkNewWorkers r.workerId ((max 0 n).toNat - r.workers.length)).length
            = (max 0 n).toNat - r.workers.length
        ∧ (setNumberOfWorkers r n).1.workers
            = r.workers ++ mkNewWorkers r.workerId ((max 0 n).toNat - r.workers.length)
        ∧ ∀ w ∈ mkNewWorkers r.workerId ((max 0 n).toNat - r.workers.length), w.started = true)
    ∧ ((max 0 n).toNat = r.workers.length →
        (setNumberOfWorkers r n).2 = SetResult.added [] ∧ (setNumberOfWorkers r n).1 = r)
    ∧ ((workerStopped total m).2 = true ↔ m + 1 = total) := by
  refine ⟨?_, ?_, ?_, ?_, ?_⟩
  · by_cases h : (max 0 n).toNat < r.workers.length
    · rw [setNumberOfWorkers_shrink r n h]
      simp
      omega
    · push_neg at h
      rw [setNumberOfWorkers_grow r n h]
      simp [mkNewWorkers_length]
      omega
  · intro h
    rw [setNumberOfWorkers_shrink r n h]
    refine ⟨rfl, rfl, ?_⟩
    intro w hw
    simp only [List.mem_map] at hw
    obtain ⟨x, _, rfl⟩ := hw
    rfl
  · intro h
    rw [setNumberOfWorkers_grow r n (le_of_lt h)]
    exact ⟨rfl, mkNewWorkers_length _ _, rfl, mkNewWorkers_started _ _⟩
  · intro h
    rw [setNumberOfWorkers_grow r n (le_of_eq h.symm)]
    rw [h]
    simp [mkNewWorkers]
  · simp [workerStopped]

/-- C8 witness: shrinking a three-worker pool to one stops exactly the
two oldest and keeps the newest; the stop-completion counter releases the
callback exactly at the second completion. -/
theorem C8_witness :
    ((setNumberOfWorkers { workerId := 3, workers := [⟨1, true, false⟩, ⟨2, true, false⟩, ⟨3, true, false⟩] } 1).1.workers.length = (max 0 (1 : Int)).toNat)
    ∧ ((setNumberOfWorkers { workerId := 3, workers := [⟨1, true, false⟩, ⟨2, true, false⟩, ⟨3, true, false⟩] } 1).2 =
        SetResult.removed (([⟨1, true, false⟩, ⟨2, true, false⟩, ⟨3, true, false⟩] : List RWorker).take 2 |>.map markStopped))
    ∧ ((workerStopped 2 1).2 = true) := by
  have h := C8_setNumberOfWorkers_spec
    { workerId := 3, workers := [⟨1, true, false⟩, ⟨2, true, false⟩, ⟨3, true, false⟩] } 1 2 1
  exact ⟨h.1, (h.2.1 (by decide)).1, h.2.2.2.2.mpr rfl⟩

/-! ## C7 — `replaceWorker` -/

lemma incrementWorkers_one (r : Runner) :
    incrementWorkers r 1 =
      ({ workerId := r.workerId + 1, workers := r.workers ++ mkNewWorkers r.workerId 1 },
       SetResult.added (mkNewWorkers r.workerId 1)) := by
  unfold incrementWorkers
  have hle : r.workers.length ≤ (max 0 ((r.workers.length : Int) + ((1 : Nat) : Int))).toNat := by
    omega
  have hgrow := setNumberOfWorkers_grow r ((r.workers.length : Int) + ((1 : Nat) : Int)) hle
  have htn : (max 0 ((r.workers.length : Int) + ((1 : Nat) : Int))).toNat
      = r.workers.length + 1 := by omega
  rw [htn] at hgrow
  simp only [Nat.add_sub_cancel_left] at hgrow
  exact hgrow

/-- C7: for every runner pool, when a pool member emits a fatal `error`,
`replaceWorker` splices the member out immediately — calling `stop` on
nobody — creates and starts exactly one freshly constructed worker (the
next factory id), and appends it: the pool size is restored to its value
before the error, having dipped by exactly one worker between the splice
and the `incrementWorkers(1)` call, and the errored member is gone. -/
theorem C7_replaceWorker_spec (r : Runner) (w : RWorker)
    (hmem : w ∈ r.workers) (hnd : r.workers.Nodup)
    (hid : ∀ x ∈ r.workers, x.id ≤ r.workerId) :
    (replaceWorker r w).2.1 = []
    ∧ (replaceWorker r w).2.2 = [{ id := r.workerId + 1, started := true, stopped := false }]
    ∧ (replaceWorker r w).1.workers
        = r.workers.erase w ++ [{ id := r.workerId + 1, started := true, stopped := false }]
    ∧ (replaceWorker r w).1.workers.length = r.workers.length
    ∧ (r.workers.erase w).length = r.workers.length - 1
    ∧ w ∉ (replaceWorker r w).1.workers := by
  have hlen : (r.workers.erase w).length = r.workers.length - 1 :=
    List.length_erase_of_mem hmem
  have hpos : 0 < r.workers.length := List.length_pos.mpr (List.ne_nil_of_mem hmem)
  have hnew : mkNewWorkers r.workerId 1
      = [{ id := r.workerId + 1, started := true, stopped := false }] := by
    simp [mkNewWorkers, createWorker, List.range_succ]
  have hrw : replaceWorker r w =
      (({ workerId := r.workerId + 1,
          workers := r.workers.erase w ++ [{ id := r.workerId + 1, started := true, stopped := false }] } : Runner),
        [], [{ id := r.workerId + 1, started := true, stopped := false }]) := by
    unfold replaceWorker
    rw [if_pos hmem]
    simp only [incrementWorkers_one, hnew]
  rw [hrw]
  refine ⟨rfl, rfl, rfl, ?_, hlen, ?_⟩
  · simp only [List.length_append, List.length_singleton, hlen]
    omega
  · intro hc
    rcases List.mem_append.mp hc with h1 | h1
    · exact (hnd.mem_erase_iff.mp h1).1 rfl
    · have hle := hid w hmem
      simp only [List.mem_singleton] at h1
      rw [h1] at hle
      simp at hle

/-- C7 witness: replacing the errored middle member of a three-worker
pool keeps the size at three, creates exactly one started worker with the
next id, and calls stop on nobody. -/
theorem C7_witness :
    (replaceWorker { workerId := 3, workers := [⟨1, true, false⟩, ⟨2, true, false⟩, ⟨3, true, false⟩] } ⟨2, true, false⟩).2.1 = []
    ∧ (replaceWorker { workerId := 3, workers := [⟨1, true, false⟩, ⟨2, true, false⟩, ⟨3, true, false⟩] } ⟨2, true, false⟩).1.workers.length = 3
    ∧ (⟨2, true, false⟩ : RWorker) ∉ (replaceWorker { workerId := 3, workers := [⟨1, true, false⟩, ⟨2, true, false⟩, ⟨3, true, false⟩] } ⟨2, true, false⟩).1.workers := by
  have h := C7_replaceWorker_spec
    { workerId := 3, workers := [⟨1, true, false⟩, ⟨2, true, false⟩, ⟨3, true, false⟩] }
    ⟨2, true, false⟩ (by decide) (by decide) (by decide)
  exact ⟨h.1, h.2.2.2.1, h.2.2.2.2.2⟩

/-! ## Worker machine predicates -/

/-- Is this event a `start` emission? -/
def isStartEv : Ev → Bool
  | Ev.start _ => true
  | _ => false

/-- No `start` event in the trace: the worker never began a job. -/
def noStarts (es : List Ev) : Bool :=
  es.all (fun e => !isStartEv e)

/-- Every `start` event of the trace happens before the first firing of a
stop callback. -/
def okTrace : List Ev → Bool
  | [] => true
  | e :: es => if e = Ev.stopped then noStarts es else okTrace es

/-- States a single started worker actually reaches: when the busy flag is
down nothing is stashed, in flight, or running; a claim transaction and a
running job never coexist; a parked stop callback implies the
subscription is already off. -/
def Wf (w : WS) : Prop :=
  (w.isBusy = false → w.nextSnapshot = none ∧ w.txRef = none ∧ w.running = none)
  ∧ (w.txRef = none ∨ w.running = none)
  ∧ (w.stopCbArmed = true → w.query = false)

/-- A worker that has fully wound down: unsubscribed, nothing stashed,
nothing in flight, nothing running. -/
def Drained (w : WS) : Prop :=
  w.query = false ∧ w.nextSnapshot = none ∧ w.isBusy = false
  ∧ w.txRef = none ∧ w.running = none

/-- The state after a fatal store error: the busy flag was never cleared,
so the worker is wedged with no transaction and no job. -/
def Stuck (w : WS) : Prop :=
  w.isBusy = true ∧ w.txRef = none ∧ w.running = none

/-! ## C5 — fatal store error -/

lemma stuck_step (a : Act) (m : Machine) (h : Stuck m.ws) :
    (step a m).1.store = m.store ∧ Stuck (step a m).1.ws ∧ (step a m).2 = [] := by
  obtain ⟨hb, ht, hr⟩ := h
  cases a with
  | notify k =>
    by_cases hq : m.ws.query
    · simp only [step, childAdded, hq, if_true, tryToWork, hb]
      simp [Stuck, ht, hr]
    · simp only [Bool.not_eq_true] at hq
      simp only [step, childAdded, hq, Bool.false_eq_true, if_false]
      simp [Stuck, hb, ht, hr]
  | txDone o =>
    simp only [step, onComplete, ht]
    simp [Stuck, hb, ht, hr]
  | jobCallback e =>
    simp only [step, finishJob, hr]
    simp [Stuck, hb, ht, hr]
  | stopCall hc =>
    simp only [step, stopV3, hb]
    cases hc <;> simp [Stuck, ht, hr]

lemma stuck_run (acts : List Act) (m : Machine) (h : Stuck m.ws) :
    (run m acts).1.store = m.store ∧ Stuck (run m acts).1.ws ∧ (run m acts).2 = [] := by
  induction acts generalizing m with
  | nil => exact ⟨rfl, h, rfl⟩
  | cons a rest ih =>
    obtain ⟨hs, hstk, hev⟩ := stuck_step a m h
    have hrec := ih (step a m).1 hstk
    simp only [run]
    refine ⟨hrec.1.trans hs, hrec.2.1, ?_⟩
    rw [hev, hrec.2.2]
    rfl

/-- C5: for every worker whose claim attempt completes with a store-level
error (not a lost race), the worker emits `error` and nothing else, and
afterwards — whatever notifications, callbacks or stop calls arrive — it
emits no further event at all (in particular it never starts another job
on its own) and never has another claim transaction in flight: the busy
flag is never cleared, so the `child_added` handler can never pass the
`_tryToWork` guard again, which is how the worker ceases watching. -/
theorem C5_store_error_fatal (m : Machine) (k : Nat) (p : Option Job) (acts : List Act)
    (htx : m.ws.txRef = some (k, p)) (hbusy : m.ws.isBusy = true)
    (hrun : m.ws.running = none) :
    (step (Act.txDone TxOutcome.fail) m).2 = [Ev.errored]
    ∧ (run (step (Act.txDone TxOutcome.fail) m).1 acts).2 = []
    ∧ (run (step (Act.txDone TxOutcome.fail) m).1 acts).1.ws.txRef = none := by
  have hstep : step (Act.txDone TxOutcome.fail) m
      = ({ m with ws := { m.ws with txRef := none } }, [Ev.errored]) := by
    simp only [step, onComplete, htx]
  have hstuck : Stuck ({ m.ws with txRef := none } : WS) := ⟨hbusy, rfl, hrun⟩
  have hrest := stuck_run acts ({ m with ws := { m.ws with txRef := none } }) hstuck
  refine ⟨by rw [hstep], ?_, ?_⟩
  · rw [hstep]
    exact hrest.2.2
  · rw [hstep]
    exact hrest.2.1.2.1

/-- C5 witness: a worker mid-claim that hits a store error emits exactly
`error`, and a subsequent notification, job callback, stop and commit all
go unanswered. -/
theorem C5_witness :
    (step (Act.txDone TxOutcome.fail)
        { ws := { isBusy := true, txRef := some (0, none) },
          store := { pendingJobs := [(0, { payload := [("n", 1)] })] } }).2 = [Ev.errored]
    ∧ (run (step (Act.txDone TxOutcome.fail)
        { ws := { isBusy := true, txRef := some (0, none) },
          store := { pendingJobs := [(0, { payload := [("n", 1)] })] } }).1
        [Act.notify 3, Act.jobCallback none, Act.stopCall true, Act.txDone TxOutcome.commit]).2 = []
    ∧ (run (step (Act.txDone TxOutcome.fail)
        { ws := { isBusy := true, txRef := some (0, none) },
          store := { pendingJobs := [(0, { payload := [("n", 1)] })] } }).1
        [Act.notify 3, Act.jobCallback none, Act.stopCall true, Act.txDone TxOutcome.commit]).1.ws.txRef = none :=
  C5_store_error_fatal
    { ws := { isBusy := true, txRef := some (0, none) },
      store := { pendingJobs := [(0, { payload := [("n", 1)] })] } }
    0 none [Act.notify 3, Act.jobCallback none, Act.stopCall true, Act.txDone TxOutcome.commit]
    rfl rfl rfl

/-! ## C6 — lost race -/

lemma getNextJob_fields (prev : Option Job) (w : WS) :
    noStarts (getNextJob prev w).2 = true
    ∧ (w.nextSnapshot = none →
        (getNextJob prev w).1.isBusy = false
        ∧ (getNextJob prev w).1.txRef = w.txRef
        ∧ (getNextJob prev w).1.nextSnapshot = none)
    ∧ (∀ k2, w.nextSnapshot = some k2 →
        (getNextJob prev w).1.isBusy = true
        ∧ (getNextJob prev w).1.txRef = some (k2, prev)
        ∧ (getNextJob prev w).1.nextSnapshot = none) := by
  cases hns : w.nextSnapshot with
  | some k2 =>
    simp only [getNextJob, hns, tryToWork]
    simp [noStarts, hns]
  | none =>
    cases prev with
    | none =>
      simp only [getNextJob, hns]
      simp [noStarts]
    | some j =>
      simp only [getNextJob, hns]
      by_cases ha : w.stopCbArmed <;> simp [ha, noStarts, isStartEv]

/-- C6: for every claim attempt whose commit succeeds but whose read
value was null, or whose commit does not happen because of a concurrent
modification, the worker emits no `start` event, leaves the started
partition untouched (the record-start hook is not invoked) and the
pending partition as it was, and re-enters watching: with nothing stashed
it simply drops the busy flag with no transaction in flight, and with a
candidate already stashed it immediately puts a new claim transaction in
flight for that candidate. -/
theorem C6_lost_race (m : Machine) (k k2 : Nat) (prev : Option Job)
    (htx : m.ws.txRef = some (k, prev)) :
    (lookupAssoc m.store.pendingJobs k = none →
        noStarts (step (Act.txDone TxOutcome.commit) m).2 = true
        ∧ (step (Act.txDone TxOutcome.commit) m).1.store = m.store
        ∧ (m.ws.nextSnapshot = none →
            (step (Act.txDone TxOutcome.commit) m).1.ws.isBusy = false
            ∧ (step (Act.txDone TxOutcome.commit) m).1.ws.txRef = none)
        ∧ (m.ws.nextSnapshot = some k2 →
            (step (Act.txDone TxOutcome.commit) m).1.ws.isBusy = true
            ∧ (step (Act.txDone TxOutcome.commit) m).1.ws.txRef = some (k2, prev)
            ∧ (step (Act.txDone TxOutcome.commit) m).1.ws.nextSnapshot = none))
    ∧ (noStarts (step (Act.txDone TxOutcome.abort) m).2 = true
        ∧ (step (Act.txDone TxOutcome.abort) m).1.store = m.store
        ∧ (m.ws.nextSnapshot = none →
            (step (Act.txDone TxOutcome.abort) m).1.ws.isBusy = false
            ∧ (step (Act.txDone TxOutcome.abort) m).1.ws.txRef = none)
        ∧ (m.ws.nextSnapshot = some k2 →
            (step (Act.txDone TxOutcome.abort) m).1.ws.isBusy = true
            ∧ (step (Act.txDone TxOutcome.abort) m).1.ws.txRef = some (k2, prev)
            ∧ (step (Act.txDone TxOutcome.abort) m).1.ws.nextSnapshot = none)) := by
  constructor
  · intro hp
    have hstep : step (Act.txDone TxOutcome.commit) m
        = ({ ws := (getNextJob prev { m.ws with txRef := none }).1, store := m.store },
           (getNextJob prev { m.ws with txRef := none }).2) := by
      simp only [step, onComplete, htx, claimJob, hp]
      rw [removeAssoc_eq_of_lookupAssoc_none m.store.pendingJobs k hp]
    have hg := getNextJob_fields prev { m.ws with txRef := none }
    rw [hstep]
    refine ⟨hg.1, rfl, ?_, ?_⟩
    · intro hns
      have := hg.2.1 (by simpa using hns)
      exact ⟨this.1, this.2.1⟩
    · intro hns
      exact hg.2.2 k2 (by simpa using hns)
  · have hstep : step (Act.txDone TxOutcome.abort) m
        = ({ ws := (getNextJob prev { m.ws with txRef := none }).1, store := m.store },
           (getNextJob prev { m.ws with txRef := none }).2) := by
      simp only [step, onComplete, htx]
    have hg := getNextJob_fields prev { m.ws with txRef := none }
    rw [hstep]
    refine ⟨hg.1, rfl, ?_, ?_⟩
    · intro hns
      have := hg.2.1 (by simpa using hns)
      exact ⟨this.1, this.2.1⟩
    · intro hns
      exact hg.2.2 k2 (by simpa using hns)

/-- C6 witness: a worker whose commit read null with another candidate
stashed emits no `start`, keeps the store intact, and immediately has a
new claim in flight for the stashed candidate; the same worker with a
non-committed transaction behaves identically. -/
theorem C6_witness :
    noStarts (step (Act.txDone TxOutcome.commit)
      { ws := { isBusy := true, txRef := some (0, none), nextSnapshot := some 1 },
        store := { pendingJobs := [(1, { payload := [("n", 2)] })] } }).2 = true
    ∧ (step (Act.txDone TxOutcome.commit)
      { ws := { isBusy := true, txRef := some (0, none), nextSnapshot := some 1 },
        store := { pendingJobs := [(1, { payload := [("n", 2)] })] } }).1.store
      = { pendingJobs := [(1, { payload := [("n", 2)] })] }
    ∧ (step (Act.txDone TxOutcome.commit)
      { ws := { isBusy := true, txRef := some (0, none), nextSnapshot := some 1 },
        store := { pendingJobs := [(1, { payload := [("n", 2)] })] } }).1.ws.txRef = some (1, none) := by
  have h := C6_lost_race
    { ws := { isBusy := true, txRef := some (0, none), nextSnapshot := some 1 },
      store := { pendingJobs := [(1, { payload := [("n", 2)] })] } }
    0 1 none rfl
  have h1 := h.1 (by decide)
  exact ⟨h1.1, h1.2.1, (h1.2.2.2 rfl).2.1⟩

/-! ## C1 — at-most-one claim -/

/-- A worker racing for candidate `k`: its claim transaction on `k` is in
flight and nothing else is stashed. -/
def Racing (k : Nat) (w : WS) : Prop :=
  (∃ p, w.txRef = some (k, p)) ∧ w.nextSnapshot = none

lemma race_winner_step (w : WS) (s : Store) (k : Nat) (p : Option Job) (pj : Job)
    (htx : w.txRef = some (k, p)) (hp : lookupAssoc s.pendingJobs k = some pj)
    (hkey : pj.key = none) :
    step (Act.txDone TxOutcome.commit) { ws := w, store := s }
      = ({ ws := { w with txRef := none, running := some { pj with key := some k } },
           store := { s with pendingJobs := removeAssoc s.pendingJobs k, startedJobs := updateChild s.startedJobs k (jobWasStartedRecord { pj with key := some k }) } },
         [Ev.start { pj with key := some k }]) := by
  simp only [step, onComplete, htx, claimJob, hp, hkey, startJob]

lemma race_loser_step (w : WS) (s : Store) (k : Nat) (p : Option Job)
    (htx : w.txRef = some (k, p)) (hp : lookupAssoc s.pendingJobs k = none)
    (hns : w.nextSnapshot = none) :
    (step (Act.txDone TxOutcome.commit) { ws := w, store := s }).1.store = s
    ∧ noStarts (step (Act.txDone TxOutcome.commit) { ws := w, store := s }).2 = true
    ∧ (step (Act.txDone TxOutcome.commit) { ws := w, store := s }).1.ws.nextSnapshot = none := by
  have hstep : step (Act.txDone TxOutcome.commit) { ws := w, store := s }
      = ({ ws := (getNextJob p { w with txRef := none }).1, store := s },
         (getNextJob p { w with txRef := none }).2) := by
    simp only [step, onComplete, htx, claimJob, hp]
    rw [removeAssoc_eq_of_lookupAssoc_none s.pendingJobs k hp]
  have hg := getNextJob_fields p { w with txRef := none }
  rw [hstep]
  exact ⟨rfl, hg.1, (hg.2.1 (by simpa using hns)).2.2⟩

lemma race_losers (k : Nat) (ws : List WS) (s : Store)
    (hall : ∀ w ∈ ws, Racing k w) (hp : lookupAssoc s.pendingJobs k = none) :
    (completeAll ws s).2 = s
    ∧ ∀ r ∈ (completeAll ws s).1, noStarts r.2 = true ∧ r.1.nextSnapshot = none := by
  induction ws with
  | nil => simp [completeAll]
  | cons w rest ih =>
    obtain ⟨⟨p, htx⟩, hns⟩ := hall w (by simp)
    have hl := race_loser_step w s k p htx hp hns
    have hrec := ih (fun x hx => hall x (by simp [hx]))
    simp only [completeAll]
    rw [hl.1]
    refine ⟨hrec.1, ?_⟩
    intro r hr
    rcases List.mem_cons.mp hr with hhead | htail
    · rw [hhead]
      exact ⟨hl.2.1, hl.2.2⟩
    · exact hrec.2 r htail

lemma lookupAssoc_updateChild_fresh (l : List (Nat × Job)) (k : Nat) (f : Job)
    (h : lookupAssoc l k = none) :
    lookupAssoc (updateChild l k f) k = some f := by
  unfold updateChild
  rw [h]
  exact lookupAssoc_setAssoc_self l k f

/-- C1: for N workers whose claim transactions against the same single
pending job serialize in some order, exactly one worker — the first in
the serialization — emits a `start` event for that job and invokes the
queue's record-start hook (the job appears in `startedJobs` with the
stamped record); every other worker's trace has no `start`, and
afterwards the job is gone from the pending partition with no candidate
stashed at any loser, so no loser ever observes it as a candidate
again. -/
theorem C1_at_most_one_claim (k : Nat) (pj : Job) (w0 : WS) (wrest : List WS) (s : Store)
    (h0 : Racing k w0) (hrest : ∀ w ∈ wrest, Racing k w)
    (hp : lookupAssoc s.pendingJobs k = some pj) (hkey : pj.key = none)
    (hst : lookupAssoc s.startedJobs k = none) :
    (((completeAll (w0 :: wrest) s).1.map (fun r => r.2)).head?
        = some [Ev.start { pj with key := some k }])
    ∧ (∀ r ∈ ((completeAll (w0 :: wrest) s).1).tail,
        noStarts r.2 = true ∧ r.1.nextSnapshot = none)
    ∧ ((completeAll (w0 :: wrest) s).1.countP (fun r => !(noStarts r.2))) = 1
    ∧ lookupAssoc (completeAll (w0 :: wrest) s).2.pendingJobs k = none
    ∧ lookupAssoc (completeAll (w0 :: wrest) s).2.startedJobs k
        = some (jobWasStartedRecord { pj with key := some k }) := by
  obtain ⟨⟨p, htx⟩, hns0⟩ := h0
  have hwin := race_winner_step w0 s k p pj htx hp hkey
  have hp1 : lookupAssoc ({ s with pendingJobs := removeAssoc s.pendingJobs k, startedJobs := updateChild s.startedJobs k (jobWasStartedRecord { pj with key := some k }) } : Store).pendingJobs k = none := by
    exact lookupAssoc_removeAssoc_self s.pendingJobs k
  have hlosers := race_losers k wrest _ hrest hp1
  have hunfold : completeAll (w0 :: wrest) s
      = (({ w0 with txRef := none, running := some { pj with key := some k } },
           [Ev.start { pj with key := some k }])
          :: (completeAll wrest ({ s with pendingJobs := removeAssoc s.pendingJobs k, startedJobs := updateChild s.startedJobs k (jobWasStartedRecord { pj with key := some k }) } : Store)).1,
         (completeAll wrest ({ s with pendingJobs := removeAssoc s.pendingJobs k, startedJobs := updateChild s.startedJobs k (jobWasStartedRecord { pj with key := some k }) } : Store)).2) := by
    simp only [completeAll, hwin]
  rw [hunfold]
  refine ⟨rfl, ?_, ?_, ?_, ?_⟩
  · intro r hr
    exact hlosers.2 r hr
  · rw [List.countP_cons]
    have hzero : (completeAll wrest ({ s with pendingJobs := removeAssoc s.pendingJobs k, startedJobs := updateChild s.startedJobs k (jobWasStartedRecord { pj with key := some k }) } : Store)).1.countP (fun r => !(noStarts r.2)) = 0 := by
      rw [List.countP_eq_zero]
      intro r hr
      simp [(hlosers.2 r hr).1]
    rw [hzero]
    simp [noStarts, isStartEv]
  · rw [hlosers.1]
    exact hp1
  · rw [hlosers.1]
    exact lookupAssoc_updateChild_fresh s.startedJobs k _ hst

/-- C1 witness: three workers racing for the single pending job `0`; the
first serialized commit starts the job and writes the started record,
the other two see no job and never observe candidate `0` again. -/
theorem C1_witness :
    ((((completeAll
        [{ isBusy := true, txRef := some (0, none) },
         { isBusy := true, txRef := some (0, none) },
         { isBusy := true, txRef := some (0, none) }]
        { nextKey := 1, pendingJobs := [(0, { payload := [("n", 1)] })] }).1.map (fun r => r.2)).head?)
      = some [Ev.start { payload := [("n", 1)], key := some 0 }])
    ∧ ((completeAll
        [{ isBusy := true, txRef := some (0, none) },
         { isBusy := true, txRef := some (0, none) },
         { isBusy := true, txRef := some (0, none) }]
        { nextKey := 1, pendingJobs := [(0, { payload := [("n", 1)] })] }).1.countP
          (fun r => !(noStarts r.2))) = 1
    ∧ lookupAssoc (completeAll
        [{ isBusy := true, txRef := some (0, none) },
         { isBusy := true, txRef := some (0, none) },
         { isBusy := true, txRef := some (0, none) }]
        { nextKey := 1, pendingJobs := [(0, { payload := [("n", 1)] })] }).2.pendingJobs 0 = none := by
  have h := C1_at_most_one_claim 0 { payload := [("n", 1)] }
    { isBusy := true, txRef := some (0, none) }
    [{ isBusy := true, txRef := some (0, none) },
     { isBusy := true, txRef := some (0, none) }]
    { nextKey := 1, pendingJobs := [(0, { payload := [("n", 1)] })] }
    ⟨⟨none, rfl⟩, rfl⟩
    (by intro w hw; fin_cases hw <;> exact ⟨⟨none, rfl⟩, rfl⟩)
    rfl rfl rfl
  exact ⟨h.1, h.2.2.1, h.2.2.2.1⟩

/-! ## C4 — stop -/

lemma noStarts_append (es fs : List Ev) :
    noStarts (es ++ fs) = (noStarts es && noStarts fs) := by
  simp [noStarts, List.all_append]

lemma okTrace_of_noStarts (es : List Ev) (h : noStarts es = true) : okTrace es = true := by
  induction es with
  | nil => rfl
  | cons e rest ih =>
    simp only [noStarts, List.all_cons, Bool.and_eq_true] at h
    by_cases he : e = Ev.stopped
    · simp only [okTrace, he, if_true]
      exact h.2
    · simp only [okTrace, he, if_false]
      exact ih h.2

lemma okTrace_append_no_stopped (es fs : List Ev) (h : Ev.stopped ∉ es) :
    okTrace (es ++ fs) = okTrace fs := by
  induction es with
  | nil => rfl
  | cons e rest ih =>
    have he : e ≠ Ev.stopped := fun hc => h (by simp [hc])
    simp only [List.cons_append, okTrace, he, if_false]
    exact ih (fun hc => h (by simp [hc]))

lemma okTrace_append_full (es fs : List Ev)
    (h1 : okTrace es = true) (h2 : noStarts fs = true) :
    okTrace (es ++ fs) = true := by
  induction es with
  | nil => exact okTrace_of_noStarts fs h2
  | cons e rest ih =>
    by_cases he : e = Ev.stopped
    · simp only [List.cons_append, okTrace, he, if_true] at h1 ⊢
      rw [show rest.append fs = rest ++ fs from rfl, noStarts_append, h1, h2]
      rfl
    · simp only [List.cons_append, okTrace, he, if_false] at h1 ⊢
      exact ih h1

lemma okTrace_getNextJob (prev : Option Job) (w : WS) :
    okTrace (getNextJob prev w).2 = true := by
  cases hns : w.nextSnapshot with
  | some k2 => simp [getNextJob, hns, okTrace]
  | none =>
    cases prev with
    | none => simp [getNextJob, hns, okTrace]
    | some j =>
      by_cases ha : w.stopCbArmed <;>
        simp [getNextJob, hns, ha, okTrace, noStarts, isStartEv]

lemma getNextJob_wf (prev : Option Job) (w : WS)
    (hrun : w.running = none) (htx : w.txRef = none)
    (harm : w.stopCbArmed = true → w.query = false) :
    Wf (getNextJob prev w).1 := by
  cases hns : w.nextSnapshot with
  | some k2 =>
    simp only [getNextJob, hns, tryToWork]
    simp [Wf, hrun]
    exact harm
  | none =>
    cases prev with
    | none =>
      simp [getNextJob, hns, Wf, htx, hrun]
      exact harm
    | some j =>
      by_cases ha : w.stopCbArmed
      · simp [getNextJob, hns, ha, Wf, htx, hrun]
      · simp only [Bool.not_eq_true] at ha
        simp [getNextJob, hns, ha, Wf, htx, hrun, harm]

lemma getNextJob_stopped_drained (prev : Option Job) (w : WS)
    (hrun : w.running = none) (htx : w.txRef = none)
    (harm : w.stopCbArmed = true → w.query = false)
    (hmem : Ev.stopped ∈ (getNextJob prev w).2) :
    Drained (getNextJob prev w).1 := by
  cases hns : w.nextSnapshot with
  | some k2 => simp [getNextJob, hns] at hmem
  | none =>
    cases prev with
    | none => simp [getNextJob, hns] at hmem
    | some j =>
      by_cases ha : w.stopCbArmed
      · simp only [getNextJob, hns, ha, if_true]
        exact ⟨harm ha, rfl, rfl, htx, hrun⟩
      · simp only [Bool.not_eq_true] at ha
        simp [getNextJob, hns, ha] at hmem

lemma getNextJob_noStarts_simple (prev : Option Job) (w : WS) :
    noStarts (getNextJob prev w).2 = true :=
  (getNextJob_fields prev w).1

lemma wf_step (a : Act) (m : Machine) (hWf : Wf m.ws) : Wf (step a m).1.ws := by
  obtain ⟨h1, h2, h3⟩ := hWf
  cases a with
  | notify k =>
    by_cases hq : m.ws.query
    · cases hb : m.ws.isBusy with
      | true =>
        simp only [step, childAdded, hq, if_true, tryToWork, hb]
        exact ⟨fun h => absurd h (by simp), h2, fun harm => absurd (h3 harm) (by simp [hq])⟩
      | false =>
        simp only [step, childAdded, hq, if_true, tryToWork, hb]
        exact ⟨fun h => absurd h (by simp), Or.inr (h1 hb).2.2,
          fun harm => absurd (h3 harm) (by simp [hq])⟩
    · simp only [Bool.not_eq_true] at hq
      simp only [step, childAdded, hq, Bool.false_eq_true, if_false]
      exact ⟨h1, h2, h3⟩
  | txDone o =>
    cases htx : m.ws.txRef with
    | none =>
      simp only [step, onComplete, htx]
      exact ⟨h1, h2, h3⟩
    | some kp =>
      obtain ⟨k, p⟩ := kp
      have hbusy : m.ws.isBusy = true := by
        by_contra hc
        simp only [Bool.not_eq_true] at hc
        rw [(h1 hc).2.1] at htx
        simp at htx
      have hrunn : m.ws.running = none := by
        rcases h2 with h2l | h2r
        · rw [h2l] at htx
          simp at htx
        · exact h2r
      cases o with
      | fail =>
        simp only [step, onComplete, htx]
        exact ⟨fun h => absurd h (by simp [hbusy]), Or.inl rfl, h3⟩
      | abort =>
        simp only [step, onComplete, htx]
        exact getNextJob_wf p { m.ws with txRef := none } hrunn rfl h3
      | commit =>
        cases hlook : lookupAssoc m.store.pendingJobs k with
        | none =>
          simp only [step, onComplete, htx, claimJob, hlook]
          exact getNextJob_wf p { m.ws with txRef := none } hrunn rfl h3
        | some j =>
          cases hjk : j.key with
          | none =>
            simp only [step, onComplete, htx, claimJob, hlook, hjk, startJob]
            exact ⟨fun h => absurd h (by simp [hbusy]), Or.inl rfl, h3⟩
          | some k0 =>
            simp only [step, onComplete, htx, claimJob, hlook, hjk, startJob]
            exact ⟨fun h => absurd h (by simp [hbusy]), Or.inl rfl, h3⟩
  | jobCallback e =>
    cases hr : m.ws.running with
    | none =>
      simp only [step, finishJob, hr]
      exact ⟨h1, h2, h3⟩
    | some job =>
      have htxn : m.ws.txRef = none := by
        rcases h2 with h2l | h2r
        · exact h2l
        · rw [h2r] at hr
          simp at hr
      cases e with
      | none =>
        simp only [step, finishJob, hr]
        exact getNextJob_wf (some job)
          { m.ws with running := none, successCount := m.ws.successCount + 1 } rfl htxn h3
      | some err =>
        simp only [step, finishJob, hr]
        exact getNextJob_wf (some job)
          { m.ws with running := none, failureCount := m.ws.failureCount + 1 } rfl htxn h3
  | stopCall hc =>
    cases hc with
    | false =>
      simp only [step, stopV3, Bool.false_eq_true, if_false]
      exact ⟨h1, h2, fun _ => rfl⟩
    | true =>
      cases hb : m.ws.isBusy with
      | true =>
        simp only [step, stopV3, hb, if_true]
        exact ⟨fun h => absurd h (by simp [hb]), h2, fun _ => rfl⟩
      | false =>
        simp only [step, stopV3, hb, Bool.false_eq_true, if_false, if_true]
        exact ⟨fun _ => h1 hb, h2, fun _ => rfl⟩

lemma okTrace_step (a : Act) (m : Machine) : okTrace (step a m).2 = true := by
  cases a with
  | notify k => simp [step, okTrace]
  | txDone o =>
    cases htx : m.ws.txRef with
    | none => simp [step, onComplete, htx, okTrace]
    | some kp =>
      obtain ⟨k, p⟩ := kp
      cases o with
      | fail => simp [step, onComplete, htx, okTrace]
      | abort =>
        simp only [step, onComplete, htx]
        exact okTrace_getNextJob p { m.ws with txRef := none }
      | commit =>
        cases hlook : lookupAssoc m.store.pendingJobs k with
        | none =>
          simp only [step, onComplete, htx, claimJob, hlook]
          exact okTrace_getNextJob p { m.ws with txRef := none }
        | some j =>
          cases hjk : j.key with
          | none => simp [step, onComplete, htx, claimJob, hlook, hjk, startJob, okTrace]
          | some k0 => simp [step, onComplete, htx, claimJob, hlook, hjk, startJob, okTrace]
  | jobCallback e =>
    cases hr : m.ws.running with
    | none => simp [step, finishJob, hr, okTrace]
    | some job =>
      cases e with
      | none =>
        simp only [step, finishJob, hr]
        rw [show ([Ev.success job] ++ [Ev.finish job]
            ++ (getNextJob (some job) { m.ws with running := none, successCount := m.ws.successCount + 1 }).2)
          = ([Ev.success job, Ev.finish job]
            ++ (getNextJob (some job) { m.ws with running := none, successCount := m.ws.successCount + 1 }).2) from rfl]
        rw [okTrace_append_no_stopped _ _ (by simp)]
        exact okTrace_getNextJob _ _
      | some err =>
        simp only [step, finishJob, hr]
        rw [show ([Ev.failure job (some err)] ++ [Ev.finish job]
            ++ (getNextJob (some job) { m.ws with running := none, failureCount := m.ws.failureCount + 1 }).2)
          = ([Ev.failure job (some err), Ev.finish job]
            ++ (getNextJob (some job) { m.ws with running := none, failureCount := m.ws.failureCount + 1 }).2) from rfl]
        rw [okTrace_append_no_stopped _ _ (by simp)]
        exact okTrace_getNextJob _ _
  | stopCall hc =>
    cases hc with
    | false => simp [step, stopV3, okTrace]
    | true =>
      cases hb : m.ws.isBusy with
      | true => simp [step, stopV3, hb, okTrace]
      | false => simp [step, stopV3, hb, okTrace, noStarts]

lemma stopped_drained (a : Act) (m : Machine) (hWf : Wf m.ws)
    (hmem : Ev.stopped ∈ (step a m).2) : Drained (step a m).1.ws := by
  obtain ⟨h1, h2, h3⟩ := hWf
  cases a with
  | notify k => simp [step] at hmem
  | txDone o =>
    cases htx : m.ws.txRef with
    | none => simp [step, onComplete, htx] at hmem
    | some kp =>
      obtain ⟨k, p⟩ := kp
      have hrunn : m.ws.running = none := by
        rcases h2 with h2l | h2r
        · rw [h2l] at htx
          simp at htx
        · exact h2r
      cases o with
      | fail => simp [step, onComplete, htx] at hmem
      | abort =>
        simp only [step, onComplete, htx] at hmem ⊢
        exact getNextJob_stopped_drained p { m.ws with txRef := none } hrunn rfl h3 hmem
      | commit =>
        cases hlook : lookupAssoc m.store.pendingJobs k with
        | none =>
          simp only [step, onComplete, htx, claimJob, hlook] at hmem ⊢
          exact getNextJob_stopped_drained p { m.ws with txRef := none } hrunn rfl h3 hmem
        | some j =>
          cases hjk : j.key with
          | none => simp [step, onComplete, htx, claimJob, hlook, hjk, startJob] at hmem
          | some k0 => simp [step, onComplete, htx, claimJob, hlook, hjk, startJob] at hmem
  | jobCallback e =>
    cases hr : m.ws.running with
    | none => simp [step, finishJob, hr] at hmem
    | some job =>
      have htxn : m.ws.txRef = none := by
        rcases h2 with h2l | h2r
        · exact h2l
        · rw [h2r] at hr
          simp at hr
      cases e with
      | none =>
        simp only [step, finishJob, hr] at hmem ⊢
        have hmem2 : Ev.stopped ∈ (getNextJob (some job)
            { m.ws with running := none, successCount := m.ws.successCount + 1 }).2 := by
          simpa using hmem
        exact getNextJob_stopped_drained _ _ rfl htxn h3 hmem2
      | some err =>
        simp only [step, finishJob, hr] at hmem ⊢
        have hmem2 : Ev.stopped ∈ (getNextJob (some job)
            { m.ws with running := none, failureCount := m.ws.failureCount + 1 }).2 := by
          simpa using hmem
        exact getNextJob_stopped_drained _ _ rfl htxn h3 hmem2
  | stopCall hc =>
    cases hc with
    | false => simp [step, stopV3] at hmem
    | true =>
      cases hb : m.ws.isBusy with
      | true => simp [step, stopV3, hb] at hmem
      | false =>
        simp only [step, stopV3, hb, Bool.false_eq_true, if_false, if_true]
        exact ⟨rfl, (h1 hb).1, rfl, (h1 hb).2.1, (h1 hb).2.2⟩

lemma drained_step (a : Act) (m : Machine) (hD : Drained m.ws) :
    Drained (step a m).1.ws ∧ noStarts (step a m).2 = true := by
  obtain ⟨hq, hns, hb, ht, hr⟩ := hD
  cases a with
  | notify k =>
    simp only [step, childAdded, hq, Bool.false_eq_true, if_false]
    exact ⟨⟨hq, hns, hb, ht, hr⟩, rfl⟩
  | txDone o =>
    simp only [step, onComplete, ht]
    exact ⟨⟨hq, hns, hb, ht, hr⟩, rfl⟩
  | jobCallback e =>
    simp only [step, finishJob, hr]
    exact ⟨⟨hq, hns, hb, ht, hr⟩, rfl⟩
  | stopCall hc =>
    cases hc with
    | false =>
      simp only [step, stopV3, Bool.false_eq_true, if_false]
      exact ⟨⟨rfl, hns, hb, ht, hr⟩, rfl⟩
    | true =>
      simp only [step, stopV3, hb, Bool.false_eq_true, if_false, if_true]
      exact ⟨⟨rfl, hns, rfl, ht, hr⟩, by simp [noStarts, isStartEv]⟩

lemma drained_run (acts : List Act) (m : Machine) (hD : Drained m.ws) :
    Drained (run m acts).1.ws ∧ noStarts (run m acts).2 = true := by
  induction acts generalizing m with
  | nil => exact ⟨hD, rfl⟩
  | cons a rest ih =>
    obtain ⟨hD1, hn1⟩ := drained_step a m hD
    obtain ⟨hD2, hn2⟩ := ih (step a m).1 hD1
    simp only [run]
    refine ⟨hD2, ?_⟩
    rw [noStarts_append, hn1, hn2]
    rfl

lemma wf_run (acts : List Act) (m : Machine) (hWf : Wf m.ws) :
    okTrace (run m acts).2 = true := by
  induction acts generalizing m with
  | nil => rfl
  | cons a rest ih =>
    by_cases hstp : Ev.stopped ∈ (step a m).2
    · have hdr := stopped_drained a m hWf hstp
      have hrest := drained_run rest (step a m).1 hdr
      simp only [run]
      exact okTrace_append_full _ _ (okTrace_step a m) hrest.2
    · simp only [run]
      rw [okTrace_append_no_stopped _ _ hstp]
      exact ih (step a m).1 (wf_step a m hWf)

/-- The pending queue for the stop counterexample: two jobs. -/
def stopCxStart : Machine :=
  { store := { nextKey := 2,
               pendingJobs := [(0, { payload := [("n", 1)] }), (1, { payload := [("n", 2)] })] } }

/-- Labels up to and including the stop call: the worker claims and starts
job `0`, candidate `1` is stashed by a notification while it is busy, and
`stop` is called with a callback. -/
def stopCxBefore : List Act :=
  [Act.notify 0, Act.txDone TxOutcome.commit, Act.notify 1, Act.stopCall true]

/-- Labels after the stop call: the running job's completion callback
fires, then the claim transaction commits. -/
def stopCxAfter : List Act :=
  [Act.jobCallback none, Act.txDone TxOutcome.commit]

/-- C4 counterexample: the claim states that `stop` cancels the
subscription so that no further candidate — including one already stashed
from an earlier notification — is claimed. At this input the subscription
is indeed off and the stop callback still pending when `stop` returns,
yet after the in-flight job finishes the worker claims and starts the
stashed candidate `1`: `Worker#stop` at `src/lib/worker.js` lines 496-509
never clears `nextSnapshot`, so `getNextJob` hands it to `_tryToWork`. -/
theorem C4_counterexample :
    (run stopCxStart stopCxBefore).1.ws.query = false
    ∧ Ev.stopped ∉ (run stopCxStart stopCxBefore).2
    ∧ Ev.start { payload := [("n", 2)], key := some 1 }
        ∈ (run (run stopCxStart stopCxBefore).1 stopCxAfter).2 := by
  exact ⟨rfl, by decide, by decide⟩

/-- C4 (amended): for every worker, `stop` turns the subscription off
immediately, and a worker whose subscription is off ignores every further
notification — but a candidate already stashed from an earlier
notification may still be claimed and executed after the in-flight job
finishes, since this `stop` does not clear the stashed snapshot (the
variant at `src/lib/worker.js` lines 306-323 does clear it). With a job
in flight the stop callback is deferred (nothing fires at the stop call)
until the worker next emits `idle`; otherwise it fires immediately. And
after the stop callback has fired the worker never starts another job: in
every run from a reachable (well-formed) state, every `start` event
precedes the first firing of a stop callback. -/
theorem C4_stop_semantics (m m2 : Machine) (k : Nat) (hc : Bool) (acts : List Act)
    (hWf : Wf m.ws) (hq2 : m2.ws.query = false) :
    ((step (Act.stopCall hc) m).1.ws.query = false)
    ∧ (step (Act.notify k) m2 = (m2, []))
    ∧ (m.ws.isBusy = true → (step (Act.stopCall hc) m).2 = [])
    ∧ (m.ws.isBusy = false →
        (step (Act.stopCall hc) m).2 = (if hc then [Ev.stopped] else []))
    ∧ okTrace (run m acts).2 = true := by
  refine ⟨?_, ?_, ?_, ?_, wf_run acts m hWf⟩
  · cases hc <;> cases hb : m.ws.isBusy <;> simp [step, stopV3, hb]
  · have hca : childAdded k m2.ws = m2.ws := by simp [childAdded, hq2]
    simp [step, hca]
  · intro hb
    cases hc <;> simp [step, stopV3, hb]
  · intro hb
    cases hc <;> simp [step, stopV3, hb]

/-- C4 witness: stopping a busy worker fires nothing at the call, a
stopped worker's notification handler is inert, and the post-stop run —
job finishes, idle fires, callback fires — keeps every `start` before the
callback. -/
theorem C4_witness :
    ((step (Act.stopCall true)
        { ws := { isBusy := true, running := some { payload := [("n", 1)] } } }).1.ws.query = false)
    ∧ (step (Act.notify 7) ({ ws := { query := false } } : Machine)
        = ({ ws := { query := false } }, []))
    ∧ ((step (Act.stopCall true)
        { ws := { isBusy := true, running := some { payload := [("n", 1)] } } }).2 = [])
    ∧ okTrace (run { ws := { isBusy := true, running := some { payload := [("n", 1)] } } }
        [Act.stopCall true, Act.jobCallback none, Act.notify 5]).2 = true := by
  have h := C4_stop_semantics
    { ws := { isBusy := true, running := some { payload := [("n", 1)] } } }
    ({ ws := { query := false } } : Machine) 7 true
    [Act.stopCall true, Act.jobCallback none, Act.notify 5]
    ⟨by simp, Or.inl rfl, by simp⟩ rfl
  exact ⟨h.1, h.2.1, h.2.2.1 rfl, h.2.2.2.2⟩
